import Mathlib

set_option maxRecDepth 100000

/-
Shallow embedding of `crossbeam/property_signatures/property_signatures.py`.

Python objects flowing through the module are booleans, integers, integer
lists, or objects of some other runtime type (e.g. a float, a callable, or a
`Value` instance).  `PyObj.other nfv` stands for an object of a single
unhandled runtime type whose `getattr(x, 'num_free_variables', 0)` equals
`nfv` (concrete bool/int/list objects cannot carry that attribute, so it is 0
for them).

Fallible Python functions (ones that can raise) are embedded as
`Except String`; the string is the exception rendered as text.  Python float
arithmetic in the reduction is embedded as exact rational arithmetic: every
quantity involved is a quotient of small machine integers, and the properties
stated below only ever compare such quotients with 0, 1/2 and 1, which float
rounding at these magnitudes cannot confuse.
-/

inductive PyType where
  | bool
  | int
  | list
  | other
deriving DecidableEq, Repr

inductive PyObj where
  | b (x : Bool)
  | i (x : Int)
  | l (x : List Int)
  | other (nfv : Nat)
deriving DecidableEq, Repr

/-- Python `type(x)`; `other` is any runtime type outside the supported set. -/
def typeOf : PyObj → PyType
  | .b _ => .bool
  | .i _ => .int
  | .l _ => .list
  | .other _ => .other

/-- Python `getattr(x, 'num_free_variables', 0)`. -/
def numFreeVariables : PyObj → Nat
  | .other nfv => nfv
  | _ => 0

/-- An object whose runtime type is in the supported set {bool, int, list}. -/
def SupportedObj (x : PyObj) : Prop := typeOf x ≠ PyType.other

instance (x : PyObj) : Decidable (SupportedObj x) := by
  unfold SupportedObj; infer_instance

/-- Key iteration order of the `DEFAULT_VALUES` dict (Python dicts preserve
insertion order); `PyType.other` is not a key. -/
def TYPES : List PyType := [.bool, .int, .list]

/-- `DEFAULT_VALUES`; the `other` case is not a key of the Python dict and is
never consulted. -/
def DEFAULT_VALUES : PyType → PyObj
  | .bool => .b false
  | .int => .i 0
  | .list => .l []
  | .other => .other 0

def VALUES_TO_TRY_bool : List PyObj := [.b false, .b true]

def VALUES_TO_TRY_int : List PyObj :=
  [.i (-100), .i (-50), .i (-20), .i (-10), .i (-7),
   .i (-5), .i (-4), .i (-3), .i (-2), .i (-1), .i 0, .i 1, .i 2, .i 3, .i 4, .i 5,
   .i 7, .i 10, .i 20, .i 50, .i 100]

def VALUES_TO_TRY_list : List PyObj :=
  [.l [], .l [0], .l [-1], .l [1], .l [6],
   .l [0, 1], .l [2, 2], .l [-2, -4], .l [5, -3], .l [-8, 1],
   .l [1, 2, 3], .l [6, 2, 5], .l [-5, 2, -19],
   .l [-32, 51, -45, 23],
   .l [0, 0, 0, 0, 0],
   .l [2, 2, 1, 3, 3, 0],
   .l [5, -6, 9, -19, 43, 22, -1],
   .l [6, 21, 23, 45, 55, 67, 72, 75],
   .l [24, -22, 0, 1, 6, -59, 35, 1, -2],
   .l [0, 0, 0, 1, 1, 1, 1, 2, 3, 3]]

/-- `sum(VALUES_TO_TRY.values(), [])` in dict key order bool, int, list. -/
def inputs_to_try : List PyObj :=
  VALUES_TO_TRY_bool ++ VALUES_TO_TRY_int ++ VALUES_TO_TRY_list

def FIXED_NUM_INPUTS : Nat := 3

/-- `_type_property`: one-hot type vector `[is_lambda, is bool, is int, is list]`.
Note the source never raises here: an unhandled type yields an all-false vector. -/
def _type_property (x : PyObj) : List Bool :=
  [decide (0 < numFreeVariables x), typeOf x == .bool, typeOf x == .int,
   typeOf x == .list]

/-- `_basic_properties`. -/
def _basic_properties (x : PyObj) : Except String (List Bool) :=
  match x with
  | .b v => .ok [v, !v]
  | .i v => .ok
      [v == -1, v == 0, v == 1, v == 2, decide (0 < v), decide (v < 0),
       decide (v.natAbs < 5), decide (v.natAbs < 10), decide (v.natAbs < 30),
       decide (v.natAbs < 100), decide (v.natAbs < 300), decide (300 ≤ v.natAbs)]
  | .l v =>
      let sorted_x := List.insertionSort (· ≤ ·) v
      let reverse_sorted_x := sorted_x.reverse
      let num_unique := v.dedup.length
      .ok [v == sorted_x, v == reverse_sorted_x, num_unique == 1,
           decide (num_unique ≤ v.length / 2), num_unique == v.length]
  | .other _ => .error "NotImplementedError: x has unhandled type"

/-- Python `max` on a nonempty list (the empty case is unreachable where used). -/
def pyMax : List Int → Int
  | [] => 0
  | a :: as => as.foldl max a

/-- Python `min` on a nonempty list (the empty case is unreachable where used). -/
def pyMin : List Int → Int
  | [] => 0
  | a :: as => as.foldl min a

/-- `_relevant`: related objects whose basic properties characterize `x`.  The
empty list is replaced by the placeholder `[0]` for max/min/sum/first/last,
while the first component and the length come from the original list. -/
def _relevant (x : PyObj) : Except String (List PyObj) :=
  match x with
  | .b v => .ok [.b v]
  | .i v => .ok [.i v]
  | .l orig =>
      let v := if orig.isEmpty then [0] else orig
      .ok [.l orig, .i orig.length, .i (pyMax v), .i (pyMin v), .i v.sum,
           .i (v.headD 0), .i (v.getLastD 0)]
  | .other _ => .error "NotImplementedError: x has unhandled type"

/-- `sum((f r for r in l), [])`: concatenate the results of a fallible per-item
computation left to right, propagating the first raised exception. -/
def sumMapE (f : α → Except String (List β)) : List α → Except String (List β)
  | [] => .ok []
  | a :: as => do
      let x ← f a
      let xs ← sumMapE f as
      pure (x ++ xs)

/-- A fallible list comprehension `[f a for a in l]`, left to right. -/
def mapME (f : α → Except String β) : List α → Except String (List β)
  | [] => .ok []
  | a :: as => do
      let b ← f a
      let bs ← mapME f as
      pure (b :: bs)

/-- Length of the list produced by a module-level `len(...)` constant; the
Python module would fail to import if the expression raised, so the error
branch is unreachable for the canonical inputs used below. -/
def exceptLen (e : Except String (List α)) : Nat :=
  match e with
  | .ok out => out.length
  | .error _ => 0

/-- `_basic_signature(x, fixed_length=False)`, split out because the Python
fixed-length branch calls the variable-length one. -/
def _basic_signature_var (x : PyObj) : Except String (List Bool) := do
  let r ← _relevant x
  let props ← sumMapE _basic_properties r
  pure (_type_property x ++ props)

def _BASIC_SIGNATURE_LENGTH_BY_TYPE (t : PyType) : Nat :=
  exceptLen (_basic_signature_var (DEFAULT_VALUES t))

/-- `_basic_signature`.  In fixed-length mode the variable-length signature is
computed eagerly (so an unhandled type raises even in fixed-length mode), then
slotted into its type position among `None` runs for the other types. -/
def _basic_signature (x : PyObj) (fixed_length : Bool) :
    Except String (List (Option Bool)) :=
  if !fixed_length then
    (_basic_signature_var x).map (List.map some)
  else do
    let basic_signature ← _basic_signature_var x
    pure (TYPES.foldl (fun result t =>
      result ++ (if typeOf x == t then basic_signature.map some
                 else List.replicate (_BASIC_SIGNATURE_LENGTH_BY_TYPE t) none)) [])

/-- `_compare_same_type`.  The Python assert compares the two runtime types; on
success it dispatches on the (shared) type, raising for an unhandled one. -/
def _compare_same_type (x y : PyObj) : Except String (List Bool) :=
  if typeOf x ≠ typeOf y then .error "AssertionError: type mismatch"
  else match x, y with
  | .b a, .b c => .ok [a == c, a != c, a && c, a || c]
  | .i a, .i c =>
      let abs_diff := (a - c).natAbs
      .ok [a == c, decide (a < c), decide (c < a), decide (abs_diff < 2),
           decide (abs_diff < 5), decide (abs_diff < 10), decide (abs_diff < 100),
           decide (0 ≤ a) == decide (0 ≤ c)]
  | .l a, .l c =>
      .ok [a == c, a.length == c.length, decide (c.length < a.length),
           decide (a.length < c.length),
           decide (((a.length : Int) - (c.length : Int)).natAbs < 2),
           (a.zip c).all (fun p => decide (p.1 ≤ p.2)),
           (a.zip c).all (fun p => decide (p.2 ≤ p.1)),
           (a.zip c).all (fun p => p.1 == p.2),
           (a.all (fun e => c.contains e) && c.all (fun e => a.contains e)),
           a.all (fun e => c.contains e),
           c.all (fun e => a.contains e)]
  | _, _ => .error "NotImplementedError: x has unhandled type"

/-- `_compare(x, y, fixed_length=False)`: same-type comparison when the types
match, otherwise comparisons of the type-matching relevance members of `x`
against `y` followed by `x` against the type-matching relevance members of
`y`, in source order. -/
def _compare_var (x y : PyObj) : Except String (List Bool) :=
  if typeOf x == typeOf y then _compare_same_type x y
  else do
    let rx ← _relevant x
    let sum1 ← sumMapE (fun r => _compare_same_type r y)
        (rx.filter (fun r => typeOf r == typeOf y))
    let ry ← _relevant y
    let sum2 ← sumMapE (fun r => _compare_same_type x r)
        (ry.filter (fun r => typeOf x == typeOf r))
    pure (sum1 ++ sum2)

def _COMPARE_LENGTH_BY_TYPES (t1 t2 : PyType) : Nat :=
  exceptLen (_compare_var (DEFAULT_VALUES t1) (DEFAULT_VALUES t2))

/-- `_compare`.  In fixed-length mode the source only evaluates the
variable-length comparison inside the lazily evaluated conditional expression
of the matching type pair, so an unhandled type silently produces a vector
that is `None` in all nine slots. -/
def _compare (x y : PyObj) (fixed_length : Bool) :
    Except String (List (Option Bool)) :=
  if !fixed_length then
    (_compare_var x y).map (List.map some)
  else
    (TYPES.product TYPES).foldlM (fun result t12 =>
      if (typeOf x, typeOf y) = t12 then
        (_compare_var x y).map (fun c => result ++ c.map some)
      else
        pure (result ++ List.replicate (_COMPARE_LENGTH_BY_TYPES t12.1 t12.2) none))
      []

/-- `_property_signature_single_example`.  In fixed-length mode inputs are
truncated to `FIXED_NUM_INPUTS`; when fewer inputs are present the result is
padded with a `None` run sized by the per-input width.  Python `%` raises
`ZeroDivisionError` on a zero divisor, so the assert below fails that way on
an empty input list. -/
def _property_signature_single_example (inputs : List PyObj) (output : PyObj)
    (fixed_length : Bool) : Except String (List (Option Bool)) :=
  if !fixed_length then do
    let out_sig ← _basic_signature output fixed_length
    let in_sigs ← sumMapE (fun i => do
        let bs ← _basic_signature i fixed_length
        let cs ← _compare i output fixed_length
        pure (bs ++ cs)) inputs
    pure (out_sig ++ in_sigs)
  else do
    let inputs := if FIXED_NUM_INPUTS < inputs.length
                  then inputs.take FIXED_NUM_INPUTS else inputs
    let result ← _basic_signature output fixed_length
    let basic_sig_length := result.length
    let in_sigs ← sumMapE (fun i => do
        let bs ← _basic_signature i fixed_length
        let cs ← _compare i output fixed_length
        pure (bs ++ cs)) inputs
    let result := result ++ in_sigs
    if inputs.length < FIXED_NUM_INPUTS then
      if inputs.length = 0 then
        .error "ZeroDivisionError: integer modulo by zero"
      else if (result.length - basic_sig_length) % inputs.length ≠ 0 then
        .error "AssertionError: length per input"
      else
        pure (result ++ List.replicate
          ((result.length - basic_sig_length) / inputs.length *
            (FIXED_NUM_INPUTS - inputs.length)) none)
    else
      pure result

/-- `_property_signature_single_object`. -/
def _property_signature_single_object (x output : PyObj) (fixed_length : Bool) :
    Except String (List (Option Bool)) := do
  let bs ← _basic_signature x fixed_length
  let cs ← _compare x output fixed_length
  pure (bs ++ cs)

/-- A reduced feature: (frac applicable, all True, all False, frac True). -/
abbrev ReducedT := ℚ × Bool × Bool × ℚ

def _REDUCED_PADDING : ReducedT := (0, false, false, 1/2)

/-- The body of the `for bools in zip(*signatures)` loop of
`_reduce_across_examples`, for one column. -/
def reduceColumn (num_examples : Nat) (bools : List (Option Bool)) : ReducedT :=
  let bools_not_none := bools.filterMap id
  let num_not_none := bools_not_none.length
  let frac_true : ℚ :=
    if num_not_none = 0 then 1/2
    else (bools_not_none.count true : ℚ) / (num_not_none : ℚ)
  ((num_not_none : ℚ) / (num_examples : ℚ),
   decide (frac_true = 1), decide (frac_true = 0), frac_true)

/-- `_reduce_across_examples`.  Under the length assert, `zip(*signatures)`
yields, for each position `j` below the common length, the column of entries
at `j`. -/
def _reduce_across_examples (signatures : List (List (Option Bool))) :
    Except String (List ReducedT) :=
  if signatures.length = 0 then .error "AssertionError: num_examples"
  else
    let signature_len := (signatures.headD []).length
    if !(signatures.all (fun sig => sig.length == signature_len)) then
      .error "AssertionError: signature lengths"
    else
      .ok ((List.range signature_len).map (fun j =>
        reduceColumn signatures.length (signatures.map (fun sig => sig.getD j none))))

/-- Modelled from the spec: the external Multi-Example `Value` abstraction
(`crossbeam/dsl/value.py` is not under `src/`).  A concrete value is a column
of per-example objects with `num_free_variables = 0`; a functional value is a
column of per-example callables sharing an arity `num_free_variables > 0`.  A
callable takes `arity` positional arguments and either produces a result
(`some r`) or produces no sample (`none`, covering both raising and returning
Python `None`, which `_run_lambda` discards identically). -/
inductive Value where
  | concrete (values : List PyObj)
  | lam (arity : Nat) (fns : List (List PyObj → Option PyObj))

def Value.num_examples : Value → Nat
  | .concrete values => values.length
  | .lam _ fns => fns.length

def Value.num_free_variables : Value → Nat
  | .concrete _ => 0
  | .lam arity _ => arity

/-- Modelled from the spec: indexing a concrete value by an example index
returns that example's object; indexing a functional value returns a
callable, i.e. an object of an unhandled runtime type without a
`num_free_variables` attribute. -/
def Value.get : Value → Nat → PyObj
  | .concrete values, idx => values.getD idx (.i 0)
  | .lam _ _, _ => .other 0

/-- `itertools.product(pool, repeat=n)`: the first position varies slowest. -/
def pyProduct (pool : List PyObj) : Nat → List (List PyObj)
  | 0 => [[]]
  | n + 1 => pool.flatMap (fun v => (pyProduct pool n).map (fun rest => v :: rest))

/-- The per-example sample lists built by the loops of `_run_lambda`: the
source iterates probe tuples in the outer loop and examples in the inner one,
appending each successful sample to its example's list, so each per-example
list holds its successful (inputs, result) samples in probe order. -/
def runLambdaList (arity : Nat) (fns : List (List PyObj → Option PyObj)) :
    List (List (List PyObj × PyObj)) :=
  fns.map (fun fn =>
    (pyProduct inputs_to_try arity).filterMap (fun inputs_list =>
      (fn inputs_list).map (fun result => (inputs_list, result))))

/-- `_run_lambda`, including its arity assert. -/
def _run_lambda (arity : Nat) (fns : List (List PyObj → Option PyObj)) :
    Except String (List (List (List PyObj × PyObj))) :=
  if arity = 0 then .error "AssertionError: arity > 0"
  else .ok (runLambdaList arity fns)

/-- The double loop of `_property_signature_lambda` building
`signatures_to_reduce`: for each example index and each of its successful
samples, the lambda's own type property (the `Value` object has an unhandled
runtime type and `num_free_variables = arity`), the comparison of the sample
output against that example's true output, and the single-example signature
of the sample. -/
def _lambda_sigs (arity : Nat) (fixed_length : Bool) (output_value : Value) :
    Nat → List (List (List PyObj × PyObj)) →
    Except String (List (List (Option Bool)))
  | _, [] => .ok []
  | example_index, pairs :: rest => do
      let sigs ← mapME (fun io => do
          let cs ← _compare io.2 (output_value.get example_index) fixed_length
          let ps ← _property_signature_single_example io.1 io.2 fixed_length
          pure ((_type_property (.other arity)).map some ++ cs ++ ps)) pairs
      let more ← _lambda_sigs arity fixed_length output_value (example_index + 1) rest
      pure (sigs ++ more)

/-- `_property_signature_lambda`, with the width of the all-padding branch
passed as a parameter: the Python module computes the constant
`_SIGNATURE_LENGTH_LAMBDA_VALUE` from this very function after defining it
(the canonical lambda used there has successful samples, so the padding
branch never runs during that computation), and the constant is then bound
when the function body next executes. -/
def _property_signature_lambda_core (pad_len : Nat) (value output_value : Value)
    (fixed_length : Bool) : Except String (List ReducedT) :=
  match value with
  | .concrete _ => .error "AssertionError: arity > 0"
  | .lam arity fns => do
      let io_pairs_per_example ← _run_lambda arity fns
      if io_pairs_per_example.all List.isEmpty then
        pure (List.replicate pad_len _REDUCED_PADDING)
      else do
        let signatures_to_reduce ←
          _lambda_sigs arity fixed_length output_value 0 io_pairs_per_example
        _reduce_across_examples signatures_to_reduce

/-- Modelled from the spec: the canonical 1-ary functional value built at
module load from the `Add` operation applied to the constant 10 and one free
variable (`deepcoder_operations.py` and `value.py` are not under `src/`): a
single-example lambda mapping an integer argument `n` to `10 + n` and
producing no sample on arguments of other types.  It is used solely to
pre-compute the lambda-signature fixed width. -/
def _LAMBDA_VALUE : Value :=
  .lam 1 [fun args => match args with
    | [PyObj.i n] => some (.i (10 + n))
    | _ => none]

def _SIGNATURE_LENGTH_LAMBDA_VALUE : Nat :=
  exceptLen (_property_signature_lambda_core 0 _LAMBDA_VALUE (.concrete [.i 1]) true)

def _property_signature_lambda (value output_value : Value) (fixed_length : Bool) :
    Except String (List ReducedT) :=
  _property_signature_lambda_core _SIGNATURE_LENGTH_LAMBDA_VALUE
    value output_value fixed_length

/-- `_property_signature_concrete_value`, including its assert. -/
def _property_signature_concrete_value (value output_value : Value)
    (fixed_length : Bool) : Except String (List ReducedT) :=
  if value.num_free_variables ≠ 0 then
    .error "AssertionError: num_free_variables == 0"
  else do
    let sigs ← mapME (fun i =>
        _property_signature_single_object (value.get i) (output_value.get i)
          fixed_length)
      (List.range output_value.num_examples)
    _reduce_across_examples sigs

/-- Modelled from the spec: `ConstantValue(0)` and `OutputValue([1])` are
single-example concrete values holding the integers 0 and 1. -/
def _SIGNATURE_LENGTH_CONCRETE_VALUE : Nat :=
  exceptLen (_property_signature_concrete_value (.concrete [.i 0])
    (.concrete [.i 1]) true)

/-- `property_signature_value`: route concrete and functional values and, in
fixed-length mode, pad the complementary block so both kinds share one width. -/
def property_signature_value (value output_value : Value) (fixed_length : Bool) :
    Except String (List ReducedT) :=
  if !fixed_length then
    if value.num_free_variables ≠ 0 then
      _property_signature_lambda value output_value fixed_length
    else
      _property_signature_concrete_value value output_value fixed_length
  else
    if value.num_free_variables ≠ 0 then
      (_property_signature_lambda value output_value fixed_length).map
        (fun sig =>
          List.replicate _SIGNATURE_LENGTH_CONCRETE_VALUE _REDUCED_PADDING ++ sig)
    else
      (_property_signature_concrete_value value output_value fixed_length).map
        (fun sig =>
          sig ++ List.replicate _SIGNATURE_LENGTH_LAMBDA_VALUE _REDUCED_PADDING)

/-- Modelled from the spec: `InputVariable([1, 2], 'in1')` and
`OutputValue([-1, -2])` are two-example concrete values of integers. -/
def VALUE_SIGNATURE_LENGTH : Nat :=
  exceptLen (property_signature_value (.concrete [.i 1, .i 2])
    (.concrete [.i (-1), .i (-2)]) true)

/-- A per-example callable that only ever produces results of supported
runtime types (it may still fail or return Python `None` on any argument). -/
def SafeFn (fn : List PyObj → Option PyObj) : Prop :=
  ∀ args r, fn args = some r → SupportedObj r

/-- Well-formedness of a value participating in a signature computation with
the given output column, per the spec: a concrete value holds supported
per-example objects and spans the same number of examples as the output; a
functional value has positive arity, one callable per output example, and its
callables produce only supported results. -/
def ValueOK : Value → List PyObj → Prop
  | .concrete vals, outs =>
      (∀ v ∈ vals, SupportedObj v) ∧ vals.length = outs.length
  | .lam arity fns, outs =>
      0 < arity ∧ (∀ fn ∈ fns, SafeFn fn) ∧ fns.length = outs.length

/-- Follows the spec's words for the Reduction Engine: at position `j`,
partition the column into applicable (non-None) entries; coverage is the
applicable count over the sample count; frac_true is the mean of the
applicable booleans, or 1/2 if none are applicable; all_true and all_false
flag whether frac_true is exactly 1 or exactly 0. -/
def specReducedFeature (signatures : List (List (Option Bool))) (j : Nat) :
    ReducedT :=
  let column := signatures.map (fun sig => sig.getD j none)
  let applicable := column.filterMap id
  let frac_true : ℚ :=
    if applicable.length = 0 then 1/2
    else (applicable.count true : ℚ) / (applicable.length : ℚ)
  ((applicable.length : ℚ) / (signatures.length : ℚ),
   decide (frac_true = 1), decide (frac_true = 0), frac_true)

/-! ### Helper lemmas -/

theorem ok_bind {α β : Type} (a : α) (f : α → Except String β) :
    (Except.ok a >>= f : Except String β) = f a := rfl

theorem pure_ok {α : Type} (a : α) : (pure a : Except String α) = .ok a := rfl

theorem sumMapE_ok_len {α β : Type} {f : α → Except String (List β)} {n : Nat} :
    ∀ {l : List α}, (∀ a ∈ l, ∃ out, f a = .ok out ∧ out.length = n) →
      ∃ out, sumMapE f l = .ok out ∧ out.length = n * l.length := by
  intro l
  induction l with
  | nil => exact fun _ => ⟨[], rfl, by simp⟩
  | cons a as ih =>
      intro h
      obtain ⟨fa, hfa, hfalen⟩ := h a (List.mem_cons_self a as)
      obtain ⟨rest, hrest, hrestlen⟩ := ih (fun b hb => h b (List.mem_cons_of_mem a hb))
      refine ⟨fa ++ rest, ?_, ?_⟩
      · simp only [sumMapE, hfa, hrest, ok_bind, pure_ok]
      · simp only [List.length_append, hfalen, hrestlen, List.length_cons]
        ring

theorem mapME_ok {α β : Type} {f : α → Except String β} {p : β → Prop} :
    ∀ {l : List α}, (∀ a ∈ l, ∃ b, f a = .ok b ∧ p b) →
      ∃ bs, mapME f l = .ok bs ∧ bs.length = l.length ∧ ∀ b ∈ bs, p b := by
  intro l
  induction l with
  | nil => exact fun _ => ⟨[], rfl, rfl, by simp⟩
  | cons a as ih =>
      intro h
      obtain ⟨fa, hfa, hp⟩ := h a (List.mem_cons_self a as)
      obtain ⟨rest, hrest, hlen, hrestp⟩ := ih (fun b hb => h b (List.mem_cons_of_mem a hb))
      refine ⟨fa :: rest, ?_, by simp [hlen], ?_⟩
      · simp only [mapME, hfa, hrest, ok_bind, pure_ok]
      · intro b hb
        rcases List.mem_cons.mp hb with h1 | h2
        · exact h1 ▸ hp
        · exact hrestp b h2

theorem getD_map_range {α : Type} (f : Nat → α) (n j : Nat) (d : α) (hj : j < n) :
    ((List.range n).map f).getD j d = f j := by
  rw [List.getD_eq_getElem?_getD, List.getElem?_map, List.getElem?_range hj]
  rfl

theorem getD_supported {outs : List PyObj} (houts : ∀ o ∈ outs, SupportedObj o)
    (idx : Nat) : SupportedObj (outs.getD idx (.i 0)) := by
  rcases h : outs[idx]? with _ | v
  · rw [List.getD_eq_getElem?_getD, h]; exact fun hc => PyType.noConfusion hc
  · rw [List.getD_eq_getElem?_getD, h]
    exact houts v (List.getElem?_mem h)

/-! ### Fixed-length widths of the building blocks -/

theorem basic_signature_fixed_len (x : PyObj) (hx : SupportedObj x) :
    ∃ l, _basic_signature x true = .ok l ∧ l.length = 103 := by
  cases x with
  | b a => exact ⟨_, rfl, rfl⟩
  | i a => exact ⟨_, rfl, rfl⟩
  | l a => exact ⟨_, rfl, rfl⟩
  | other n => exact absurd rfl hx

theorem compare_fixed_len (x y : PyObj) (hx : SupportedObj x) (hy : SupportedObj y) :
    ∃ l, _compare x y true = .ok l ∧ l.length = 119 := by
  cases x <;> cases y <;>
    first
      | exact absurd rfl hx
      | exact absurd rfl hy
      | exact ⟨_, rfl, rfl⟩

theorem single_object_fixed_len (x output : PyObj) (hx : SupportedObj x)
    (hout : SupportedObj output) :
    ∃ l, _property_signature_single_object x output true = .ok l ∧ l.length = 222 := by
  obtain ⟨bs, hbs, hbslen⟩ := basic_signature_fixed_len x hx
  obtain ⟨cs, hcs, hcslen⟩ := compare_fixed_len x output hx hout
  refine ⟨bs ++ cs, ?_, by simp [hbslen, hcslen]⟩
  simp only [_property_signature_single_object, hbs, hcs, ok_bind, pure_ok]


theorem psse_fixed_spec (inputs : List PyObj) (output : PyObj)
    (hin : ∀ v ∈ inputs, SupportedObj v) (hout : SupportedObj output)
    (hpos : 0 < inputs.length) (hlt : inputs.length < FIXED_NUM_INPUTS) :
    ∃ core, _property_signature_single_example inputs output true =
        .ok (core ++ List.replicate (222 * (FIXED_NUM_INPUTS - inputs.length)) none) ∧
      core.length = 103 + 222 * inputs.length := by
  obtain ⟨outSig, hOut, hOutLen⟩ := basic_signature_fixed_len output hout
  have hblock : ∀ i ∈ inputs, ∃ out,
      (do
        let bs ← _basic_signature i true
        let cs ← _compare i output true
        pure (bs ++ cs) : Except String (List (Option Bool))) = .ok out ∧
      out.length = 222 := by
    intro i hi
    obtain ⟨bs, hbs, hbslen⟩ := basic_signature_fixed_len i (hin i hi)
    obtain ⟨cs, hcs, hcslen⟩ := compare_fixed_len i output (hin i hi) hout
    exact ⟨bs ++ cs, by simp only [hbs, hcs, ok_bind, pure_ok],
      by simp [hbslen, hcslen]⟩
  obtain ⟨inSigs, hIn, hInLen⟩ := sumMapE_ok_len hblock
  simp only [pure_ok] at hIn
  have h3 : FIXED_NUM_INPUTS = 3 := rfl
  have hnotrunc : ¬ (FIXED_NUM_INPUTS < inputs.length) := by omega
  refine ⟨outSig ++ inSigs, ?_, by simp [hOutLen, hInLen]⟩
  simp only [_property_signature_single_example, Bool.not_true, Bool.false_eq_true,
    if_false, if_neg hnotrunc, hOut, ok_bind, pure_ok, hIn]
  have hcnt : (outSig ++ inSigs).length - outSig.length = 222 * inputs.length := by
    simp [hInLen]
  rw [if_pos hlt, if_neg (show ¬ inputs.length = 0 by omega), hcnt,
    if_neg (show ¬ 222 * inputs.length % inputs.length ≠ 0 by
      rw [Nat.mul_mod_left]; omega),
    Nat.mul_div_cancel 222 hpos]

theorem psse_fixed_len (inputs : List PyObj) (output : PyObj)
    (hin : ∀ v ∈ inputs, SupportedObj v) (hout : SupportedObj output)
    (hpos : 0 < inputs.length) :
    ∃ l, _property_signature_single_example inputs output true = .ok l ∧
      l.length = 769 := by
  have h3 : FIXED_NUM_INPUTS = 3 := rfl
  rcases Nat.lt_or_ge inputs.length FIXED_NUM_INPUTS with hlt | hge
  · obtain ⟨core, hEq, hLen⟩ := psse_fixed_spec inputs output hin hout hpos hlt
    refine ⟨_, hEq, ?_⟩
    simp only [List.length_append, List.length_replicate, hLen]
    omega
  · obtain ⟨outSig, hOut, hOutLen⟩ := basic_signature_fixed_len output hout
    have hI : (if FIXED_NUM_INPUTS < inputs.length
        then inputs.take FIXED_NUM_INPUTS else inputs).length = 3 := by
      split
      · simp only [List.length_take]
        omega
      · omega
    have hImem : ∀ v ∈ (if FIXED_NUM_INPUTS < inputs.length
        then inputs.take FIXED_NUM_INPUTS else inputs), SupportedObj v := by
      intro v hv
      apply hin
      revert hv
      split
      · exact List.mem_of_mem_take
      · exact id
    have hblock : ∀ i ∈ (if FIXED_NUM_INPUTS < inputs.length
        then inputs.take FIXED_NUM_INPUTS else inputs), ∃ out,
        (do
          let bs ← _basic_signature i true
          let cs ← _compare i output true
          pure (bs ++ cs) : Except String (List (Option Bool))) = .ok out ∧
        out.length = 222 := by
      intro i hi
      obtain ⟨bs, hbs, hbslen⟩ := basic_signature_fixed_len i (hImem i hi)
      obtain ⟨cs, hcs, hcslen⟩ := compare_fixed_len i output (hImem i hi) hout
      exact ⟨bs ++ cs, by simp only [hbs, hcs, ok_bind, pure_ok],
        by simp [hbslen, hcslen]⟩
    obtain ⟨inSigs, hIn, hInLen⟩ := sumMapE_ok_len hblock
    simp only [pure_ok] at hIn
    rw [hI] at hInLen
    have hT : ¬ ((if FIXED_NUM_INPUTS < inputs.length
        then inputs.take FIXED_NUM_INPUTS else inputs).length < FIXED_NUM_INPUTS) := by
      rw [hI]; omega
    refine ⟨outSig ++ inSigs, ?_, by simp [hOutLen, hInLen]⟩
    simp only [_property_signature_single_example, Bool.not_true, Bool.false_eq_true,
      if_false, hOut, ok_bind, pure_ok, hIn]
    rw [if_neg hT]


theorem reduce_across_examples_spec (signatures : List (List (Option Bool)))
    (n : Nat) (hne : signatures ≠ []) (hlen : ∀ s ∈ signatures, s.length = n) :
    ∃ r, _reduce_across_examples signatures = .ok r ∧ r.length = n ∧
      ∀ j, j < n → r.getD j _REDUCED_PADDING =
        reduceColumn signatures.length
          (signatures.map (fun sig => sig.getD j none)) := by
  have hL : ¬ (signatures.length = 0) := fun hc => hne (List.length_eq_zero.mp hc)
  have hhead : (signatures.headD []).length = n := by
    obtain ⟨s, ss, rfl⟩ := List.exists_cons_of_ne_nil hne
    exact hlen s (List.mem_cons_self s ss)
  have hall : (signatures.all
      (fun sig => sig.length == (signatures.headD []).length)) = true := by
    rw [List.all_eq_true]
    intro sig hsig
    rw [beq_iff_eq, hhead]
    exact hlen sig hsig
  refine ⟨(List.range n).map (fun j =>
      reduceColumn signatures.length
        (signatures.map (fun sig => sig.getD j none))), ?_, by simp, ?_⟩
  · rw [hhead] at hall
    simp only [_reduce_across_examples, if_neg hL, hhead, hall, Bool.not_true,
      Bool.false_eq_true, if_false]
  · intro j hj
    exact getD_map_range _ n j _ hj

theorem concrete_value_fixed_len (vals outs : List PyObj)
    (hvals : ∀ v ∈ vals, SupportedObj v) (houts : ∀ o ∈ outs, SupportedObj o)
    (hne : outs ≠ []) :
    ∃ r, _property_signature_concrete_value (.concrete vals) (.concrete outs) true
        = .ok r ∧ r.length = 222 := by
  have hobj : ∀ i ∈ List.range outs.length, ∃ s,
      _property_signature_single_object ((Value.concrete vals).get i)
        ((Value.concrete outs).get i) true = .ok s ∧ s.length = 222 := by
    intro i _
    exact single_object_fixed_len _ _ (getD_supported hvals i) (getD_supported houts i)
  obtain ⟨sigs, hsigs, hsigslen, hsigsp⟩ := mapME_ok hobj
  have hsne : sigs ≠ [] := by
    intro hc
    rw [hc] at hsigslen
    exact hne (List.length_eq_zero.mp (by simpa using hsigslen.symm))
  obtain ⟨r, hr, hrlen, _⟩ := reduce_across_examples_spec sigs 222 hsne hsigsp
  refine ⟨r, ?_, hrlen⟩
  simp only [_property_signature_concrete_value, Value.num_free_variables,
    Value.num_examples, ne_eq, not_true_eq_false, if_false, hsigs, ok_bind, hr]

/-! ### Lambda sampling lemmas -/

theorem pyProduct_spec (pool : List PyObj) :
    ∀ (n : Nat), ∀ ins ∈ pyProduct pool n,
      ins.length = n ∧ ∀ v ∈ ins, v ∈ pool := by
  intro n
  induction n with
  | zero =>
      intro ins hins
      simp only [pyProduct, List.mem_singleton] at hins
      subst hins
      exact ⟨rfl, by simp⟩
  | succ m ih =>
      intro ins hins
      simp only [pyProduct, List.mem_flatMap, List.mem_map] at hins
      obtain ⟨v, hv, rest, hrest, rfl⟩ := hins
      obtain ⟨hlen, hmem⟩ := ih rest hrest
      refine ⟨by simp [hlen], ?_⟩
      intro w hw
      rcases List.mem_cons.mp hw with rfl | hw2
      · exact hv
      · exact hmem w hw2

theorem inputs_to_try_supported : ∀ v ∈ inputs_to_try, SupportedObj v := by decide

theorem runLambdaList_spec (arity : Nat)
    (fns : List (List PyObj → Option PyObj)) (hsafe : ∀ fn ∈ fns, SafeFn fn) :
    (runLambdaList arity fns).length = fns.length ∧
      ∀ pairs ∈ runLambdaList arity fns, ∀ p ∈ pairs,
        p.1.length = arity ∧ (∀ v ∈ p.1, SupportedObj v) ∧ SupportedObj p.2 := by
  constructor
  · simp [runLambdaList]
  · intro pairs hpairs p hp
    simp only [runLambdaList, List.mem_map] at hpairs
    obtain ⟨fn, hfn, rfl⟩ := hpairs
    rw [List.mem_filterMap] at hp
    obtain ⟨ins, hins, heq⟩ := hp
    rcases hfr : fn ins with _ | r
    · rw [hfr] at heq; exact absurd heq (by simp [Option.map])
    · rw [hfr] at heq
      simp only [Option.map_some', Option.some.injEq] at heq
      obtain ⟨hlen, hmem⟩ := pyProduct_spec inputs_to_try arity ins hins
      subst heq
      exact ⟨hlen, fun v hv => inputs_to_try_supported v (hmem v hv),
        hsafe fn hfn ins r hfr⟩

theorem lambda_sigs_len (arity : Nat) (outs : List PyObj)
    (houts : ∀ o ∈ outs, SupportedObj o) (hpos : 0 < arity) :
    ∀ (io : List (List (List PyObj × PyObj))) (start : Nat),
      (∀ pairs ∈ io, ∀ p ∈ pairs, p.1.length = arity ∧
        (∀ v ∈ p.1, SupportedObj v) ∧ SupportedObj p.2) →
      ∃ sigs, _lambda_sigs arity true (.concrete outs) start io = .ok sigs ∧
        sigs.length = (io.map List.length).sum ∧ ∀ s ∈ sigs, s.length = 892 := by
  intro io
  induction io with
  | nil => exact fun _ _ => ⟨[], rfl, rfl, by simp⟩
  | cons pairs rest ih =>
      intro start h
      have hsample : ∀ p ∈ pairs, ∃ s,
          (do
            let cs ← _compare p.2 ((Value.concrete outs).get start) true
            let ps ← _property_signature_single_example p.1 p.2 true
            pure ((_type_property (.other arity)).map some ++ cs ++ ps) :
              Except String (List (Option Bool))) = .ok s ∧ s.length = 892 := by
        intro p hp
        obtain ⟨hplen, hpin, hpout⟩ := h pairs (List.mem_cons_self pairs rest) p hp
        obtain ⟨cs, hcs, hcslen⟩ := compare_fixed_len p.2 (outs.getD start (.i 0))
          hpout (getD_supported houts start)
        obtain ⟨ps, hps, hpslen⟩ := psse_fixed_len p.1 p.2 hpin hpout (by omega)
        refine ⟨(_type_property (.other arity)).map some ++ cs ++ ps, ?_, ?_⟩
        · simp only [Value.get, hcs, hps, ok_bind, pure_ok]
        · simp [hcslen, hpslen, _type_property]
      obtain ⟨sigs1, hsigs1, hsigs1len, hsigs1p⟩ := mapME_ok hsample
      obtain ⟨sigs2, hsigs2, hsigs2len, hsigs2p⟩ :=
        ih (start + 1) (fun q hq => h q (List.mem_cons_of_mem pairs hq))
      simp only [pure_ok] at hsigs1
      refine ⟨sigs1 ++ sigs2, ?_, ?_, ?_⟩
      · simp only [_lambda_sigs, hsigs1, hsigs2, ok_bind, pure_ok]
      · simp [hsigs1len, hsigs2len]
      · intro s hs
        rcases List.mem_append.mp hs with h1 | h2
        · exact hsigs1p s h1
        · exact hsigs2p s h2

theorem lambda_core_padding (pad arity : Nat)
    (fns : List (List PyObj → Option PyObj)) (out : Value) (h0 : ¬ arity = 0)
    (hempty : (runLambdaList arity fns).all List.isEmpty = true) :
    _property_signature_lambda_core pad (.lam arity fns) out true =
      .ok (List.replicate pad _REDUCED_PADDING) := by
  simp only [_property_signature_lambda_core, _run_lambda, if_neg h0, ok_bind,
    hempty, if_true, pure_ok]

theorem lambda_core_nonempty_len (pad arity : Nat)
    (fns : List (List PyObj → Option PyObj)) (outs : List PyObj)
    (h0 : 0 < arity) (hsafe : ∀ fn ∈ fns, SafeFn fn)
    (houts : ∀ o ∈ outs, SupportedObj o)
    (hne : (runLambdaList arity fns).all List.isEmpty = false) :
    ∃ r, _property_signature_lambda_core pad (.lam arity fns) (.concrete outs)
        true = .ok r ∧ r.length = 892 := by
  obtain ⟨-, hprops⟩ := runLambdaList_spec arity fns hsafe
  obtain ⟨sigs, hsigs, hsigslen, hsigsp⟩ :=
    lambda_sigs_len arity outs houts h0 (runLambdaList arity fns) 0 hprops
  have hex : ∃ pairs ∈ runLambdaList arity fns, pairs ≠ [] := by
    by_contra hc
    push_neg at hc
    have hall : (runLambdaList arity fns).all List.isEmpty = true := by
      rw [List.all_eq_true]
      intro pairs hp
      rw [List.isEmpty_iff]
      exact hc pairs hp
    rw [hne] at hall
    exact Bool.false_ne_true hall
  have hsne : sigs ≠ [] := by
    obtain ⟨pairs, hp, hpn⟩ := hex
    intro hc
    rw [hc] at hsigslen
    simp only [List.length_nil] at hsigslen
    have h1 : pairs.length ≤ ((runLambdaList arity fns).map List.length).sum :=
      List.single_le_sum (by simp) pairs.length
        (List.mem_map_of_mem List.length hp)
    have h2 : 0 < pairs.length := List.length_pos.mpr hpn
    omega
  obtain ⟨r, hr, hrlen, -⟩ := reduce_across_examples_spec sigs 892 hsne hsigsp
  refine ⟨r, ?_, hrlen⟩
  simp only [_property_signature_lambda_core, _run_lambda,
    if_neg (show ¬ arity = 0 by omega), ok_bind, hne, Bool.false_eq_true,
    if_false, hsigs, hr]

theorem sig_concrete_len_eq : _SIGNATURE_LENGTH_CONCRETE_VALUE = 222 := rfl

theorem sig_lambda_len_eq : _SIGNATURE_LENGTH_LAMBDA_VALUE = 892 := rfl

theorem value_signature_len_eq : VALUE_SIGNATURE_LENGTH = 1114 := rfl

theorem ok_map {α β : Type} (a : α) (f : α → β) :
    (Except.ok a : Except String α).map f = .ok (f a) := rfl

/-! ### Claim theorems -/

/-- C1: for every well-formed Value over the supported types — concrete
(`num_free_variables = 0`, supported per-example objects) or functional
(`num_free_variables > 0`, callables producing only supported results) — and
every supported concrete output value, `property_signature_value` with
`fixed_length = True` returns a list of reduced 4-tuples whose length is the
single constant `VALUE_SIGNATURE_LENGTH`, the concrete-block width
`_SIGNATURE_LENGTH_CONCRETE_VALUE` plus the lambda-block width
`_SIGNATURE_LENGTH_LAMBDA_VALUE`, independently of the value's kind, example
count, arity and contents. -/
theorem C1_value_signature_length (v : Value) (outs : List PyObj)
    (hne : outs ≠ []) (houts : ∀ o ∈ outs, SupportedObj o)
    (hv : ValueOK v outs) :
    ∃ sig, property_signature_value v (.concrete outs) true = .ok sig ∧
      sig.length = VALUE_SIGNATURE_LENGTH ∧
      VALUE_SIGNATURE_LENGTH =
        _SIGNATURE_LENGTH_CONCRETE_VALUE + _SIGNATURE_LENGTH_LAMBDA_VALUE := by
  have hconst : VALUE_SIGNATURE_LENGTH =
      _SIGNATURE_LENGTH_CONCRETE_VALUE + _SIGNATURE_LENGTH_LAMBDA_VALUE := rfl
  cases v with
  | concrete vals =>
      obtain ⟨hvals, -⟩ := hv
      obtain ⟨r, hr, hrlen⟩ := concrete_value_fixed_len vals outs hvals houts hne
      refine ⟨r ++ List.replicate _SIGNATURE_LENGTH_LAMBDA_VALUE _REDUCED_PADDING,
        ?_, ?_, hconst⟩
      · simp only [property_signature_value, Value.num_free_variables, ne_eq,
          not_true_eq_false, Bool.not_true, Bool.false_eq_true, if_false, hr,
          ok_map]
      · simp only [List.length_append, List.length_replicate, hrlen,
          sig_lambda_len_eq, value_signature_len_eq]
  | lam arity fns =>
      obtain ⟨h0, hsafe, -⟩ := hv
      have harity : ¬ (arity = 0) := by omega
      cases hall : (runLambdaList arity fns).all List.isEmpty with
      | true =>
          have hpad := lambda_core_padding _SIGNATURE_LENGTH_LAMBDA_VALUE arity
            fns (.concrete outs) harity hall
          refine ⟨List.replicate _SIGNATURE_LENGTH_CONCRETE_VALUE _REDUCED_PADDING
              ++ List.replicate _SIGNATURE_LENGTH_LAMBDA_VALUE _REDUCED_PADDING,
            ?_, ?_, hconst⟩
          · simp only [property_signature_value, _property_signature_lambda,
              Value.num_free_variables, ne_eq, Bool.not_true, Bool.false_eq_true,
              if_false, if_pos harity, hpad, ok_map]
          · simp only [List.length_append, List.length_replicate,
              sig_concrete_len_eq, sig_lambda_len_eq, value_signature_len_eq]
      | false =>
          obtain ⟨r, hr, hrlen⟩ := lambda_core_nonempty_len
            _SIGNATURE_LENGTH_LAMBDA_VALUE arity fns outs h0 hsafe houts hall
          refine ⟨List.replicate _SIGNATURE_LENGTH_CONCRETE_VALUE _REDUCED_PADDING
              ++ r, ?_, ?_, hconst⟩
          · simp only [property_signature_value, _property_signature_lambda,
              Value.num_free_variables, ne_eq, Bool.not_true, Bool.false_eq_true,
              if_false, if_pos harity, hr, ok_map]
          · simp only [List.length_append, List.length_replicate, hrlen,
              sig_concrete_len_eq, value_signature_len_eq]

/-- C1 witness: a concrete single-example integer value against a
single-example integer output. -/
theorem C1_value_signature_length_witness :
    ∃ sig, property_signature_value (.concrete [PyObj.i 5])
        (.concrete [PyObj.i 7]) true = .ok sig ∧
      sig.length = VALUE_SIGNATURE_LENGTH ∧
      VALUE_SIGNATURE_LENGTH =
        _SIGNATURE_LENGTH_CONCRETE_VALUE + _SIGNATURE_LENGTH_LAMBDA_VALUE :=
  C1_value_signature_length (.concrete [PyObj.i 5]) [PyObj.i 7]
    (by decide) (by decide) ⟨by decide, rfl⟩

/-- C2 counterexample: for the unhandled-type object `PyObj.other 0` (e.g. a
float, with no positive `num_free_variables`), type classification does not
raise — the source computes the vector from `getattr` and identity tests with
no error path, yielding all-false — and fixed-length `_compare` does not
raise either — the lazily evaluated conditional never reaches the
variable-length comparison and an all-None vector is returned — contradicting
the claim that classification and fixed-length comparison fail fast. -/
theorem C2_counterexample :
    _type_property (PyObj.other 0) = [false, false, false, false] ∧
    _compare (PyObj.other 0) (PyObj.i 0) true = .ok (List.replicate 119 none) :=
  ⟨rfl, rfl⟩

/-- C2 amended: for every object of unhandled runtime type,
`_basic_properties`, `_relevant`, and `_compare` in variable-length mode
(with the object on either side) raise the unhandled-type error, which the
module never catches; but `_type_property` returns
`[is_lambda, false, false, false]` without raising, and `_compare` in
fixed-length mode returns the full-width all-None vector without raising. -/
theorem C2_amended_unhandled_type (x y : PyObj) (hx : typeOf x = PyType.other) :
    _basic_properties x = .error "NotImplementedError: x has unhandled type" ∧
    _relevant x = .error "NotImplementedError: x has unhandled type" ∧
    (∃ msg, _compare x y false = .error msg) ∧
    (∃ msg, _compare y x false = .error msg) ∧
    _type_property x = [decide (0 < numFreeVariables x), false, false, false] ∧
    _compare x y true = .ok (List.replicate 119 none) := by
  cases x with
  | b a => exact PyType.noConfusion hx
  | i a => exact PyType.noConfusion hx
  | l a => exact PyType.noConfusion hx
  | other n =>
      refine ⟨rfl, rfl, ?_, ?_, rfl, ?_⟩
      · cases y <;> exact ⟨_, rfl⟩
      · cases y <;> exact ⟨_, rfl⟩
      · cases y <;> rfl

/-- C2 witness: the amended statement at the float-like object `other 0`
against the integer 7. -/
theorem C2_amended_unhandled_type_witness :
    _basic_properties (PyObj.other 0) =
      .error "NotImplementedError: x has unhandled type" ∧
    _relevant (PyObj.other 0) =
      .error "NotImplementedError: x has unhandled type" ∧
    (∃ msg, _compare (PyObj.other 0) (PyObj.i 7) false = .error msg) ∧
    (∃ msg, _compare (PyObj.i 7) (PyObj.other 0) false = .error msg) ∧
    _type_property (PyObj.other 0) =
      [decide (0 < numFreeVariables (PyObj.other 0)), false, false, false] ∧
    _compare (PyObj.other 0) (PyObj.i 7) true = .ok (List.replicate 119 none) :=
  C2_amended_unhandled_type (PyObj.other 0) (PyObj.i 7) rfl

/-- C3 counterexample: with the empty list of inputs, fixed-length
`_property_signature_single_example` does not return a padded constant-width
vector: the modulo in the padding assert divides by `len(inputs) = 0` and the
call raises ZeroDivisionError. -/
theorem C3_counterexample :
    _property_signature_single_example [] (PyObj.i 0) true =
      .error "ZeroDivisionError: integer modulo by zero" := rfl

/-- C3 amended: for every list of one or two supported inputs (fewer than
`FIXED_NUM_INPUTS = 3`, but at least one) and every supported output,
fixed-length `_property_signature_single_example` pads with a None run of
exactly 222 slots per missing input — 222 being what one additional input
would have contributed — reaching the same total width 769 it returns for
exactly three inputs; for the empty list of inputs it instead raises
ZeroDivisionError (see the counterexample). -/
theorem C3_amended_padding (inputs : List PyObj) (output : PyObj)
    (hin : ∀ v ∈ inputs, SupportedObj v) (hout : SupportedObj output)
    (hpos : 0 < inputs.length) (hlt : inputs.length < FIXED_NUM_INPUTS) :
    ∃ core, _property_signature_single_example inputs output true =
        .ok (core ++ List.replicate
          (222 * (FIXED_NUM_INPUTS - inputs.length)) none) ∧
      core.length = 103 + 222 * inputs.length ∧
      core.length + 222 * (FIXED_NUM_INPUTS - inputs.length) = 769 := by
  obtain ⟨core, h1, h2⟩ := psse_fixed_spec inputs output hin hout hpos hlt
  have h3 : FIXED_NUM_INPUTS = 3 := rfl
  exact ⟨core, h1, h2, by omega⟩

/-- C3 witness: one boolean input against an integer output. -/
theorem C3_amended_padding_witness :
    ∃ core, _property_signature_single_example [PyObj.b true] (PyObj.i 0) true =
        .ok (core ++ List.replicate
          (222 * (FIXED_NUM_INPUTS - [PyObj.b true].length)) none) ∧
      core.length = 103 + 222 * [PyObj.b true].length ∧
      core.length + 222 * (FIXED_NUM_INPUTS - [PyObj.b true].length) = 769 :=
  C3_amended_padding [PyObj.b true] (PyObj.i 0) (by decide) (by decide)
    (by decide) (by decide)

/-- C4: for supported concrete objects of different runtime types,
variable-length `_compare` equals the concatenation of the same-type
comparisons of `x` against every type-matching relevance member of `y`
followed by those of every type-matching relevance member of `x` against `y`
(for this type system one of the two blocks is always empty, so this order
coincides with the source's); when the runtime types match it returns exactly
`_compare_same_type x y` with no relevance expansion. -/
theorem C4_cross_type_compare (x y : PyObj) (hx : SupportedObj x)
    (hy : SupportedObj y) :
    (typeOf x = typeOf y →
      _compare x y false = (_compare_same_type x y).map (List.map some)) ∧
    (typeOf x ≠ typeOf y →
      ∃ rx ry l1 l2, _relevant x = .ok rx ∧ _relevant y = .ok ry ∧
        sumMapE (fun r => _compare_same_type x r)
          (ry.filter (fun r => typeOf x == typeOf r)) = .ok l1 ∧
        sumMapE (fun r => _compare_same_type r y)
          (rx.filter (fun r => typeOf r == typeOf y)) = .ok l2 ∧
        _compare x y false = .ok (List.map some (l1 ++ l2))) := by
  cases x <;> cases y <;>
    first
      | exact absurd rfl hx
      | exact absurd rfl hy
      | exact ⟨fun _ => rfl, fun hne => absurd rfl hne⟩
      | exact ⟨fun h => absurd h (fun hc => PyType.noConfusion hc),
          fun _ => ⟨_, _, _, _, rfl, rfl, rfl, rfl, rfl⟩⟩

/-- C4 witness: the integer 0 against the list [1], a cross-type pair. -/
theorem C4_cross_type_compare_witness :
    (typeOf (PyObj.i 0) = typeOf (PyObj.l [1]) →
      _compare (PyObj.i 0) (PyObj.l [1]) false =
        (_compare_same_type (PyObj.i 0) (PyObj.l [1])).map (List.map some)) ∧
    (typeOf (PyObj.i 0) ≠ typeOf (PyObj.l [1]) →
      ∃ rx ry l1 l2, _relevant (PyObj.i 0) = .ok rx ∧
        _relevant (PyObj.l [1]) = .ok ry ∧
        sumMapE (fun r => _compare_same_type (PyObj.i 0) r)
          (ry.filter (fun r => typeOf (PyObj.i 0) == typeOf r)) = .ok l1 ∧
        sumMapE (fun r => _compare_same_type r (PyObj.l [1]))
          (rx.filter (fun r => typeOf r == typeOf (PyObj.l [1]))) = .ok l2 ∧
        _compare (PyObj.i 0) (PyObj.l [1]) false =
          .ok (List.map some (l1 ++ l2))) :=
  C4_cross_type_compare (PyObj.i 0) (PyObj.l [1]) (by decide) (by decide)

/-- C5: for every nonempty list of equal-length signatures,
`_reduce_across_examples` succeeds and returns one 4-tuple per position in
input-position order, each equal to the spec's reduced feature — coverage is
the applicable (non-None) count over the sample count, frac_true is the mean
of the applicable booleans or 1/2 when none apply, and all_true / all_false
hold exactly when frac_true is exactly 1 or exactly 0; in particular a
position that is None in every signature reduces to (0, false, false, 1/2). -/
theorem C5_reduce_across_examples (signatures : List (List (Option Bool)))
    (n : Nat) (hne : signatures ≠ [])
    (hlen : ∀ sig ∈ signatures, sig.length = n) :
    ∃ result, _reduce_across_examples signatures = .ok result ∧
      result.length = n ∧
      (∀ j, j < n →
        result.getD j _REDUCED_PADDING = specReducedFeature signatures j) ∧
      (∀ j, j < n → (∀ sig ∈ signatures, sig.getD j none = none) →
        result.getD j _REDUCED_PADDING = _REDUCED_PADDING) := by
  obtain ⟨r, hr, hrlen, hrj⟩ := reduce_across_examples_spec signatures n hne hlen
  refine ⟨r, hr, hrlen, ?_, ?_⟩
  · intro j hj
    rw [hrj j hj]
    rfl
  · intro j hj hcol
    have happ : (signatures.map (fun sig => sig.getD j none)).filterMap id = [] := by
      rw [List.filterMap_eq_nil_iff]
      intro a ha
      rw [List.mem_map] at ha
      obtain ⟨sig, hsig, rfl⟩ := ha
      exact hcol sig hsig
    rw [hrj j hj]
    simp only [reduceColumn, happ, List.length_nil, Nat.cast_zero, zero_div,
      if_pos rfl, _REDUCED_PADDING]
    norm_num

/-- C5 witness: two one-slot signatures, one None and one True. -/
theorem C5_reduce_across_examples_witness :
    ∃ result, _reduce_across_examples [[Option.none], [some true]] = .ok result ∧
      result.length = 1 ∧
      (∀ j, j < 1 → result.getD j _REDUCED_PADDING =
        specReducedFeature [[Option.none], [some true]] j) ∧
      (∀ j, j < 1 →
        (∀ sig ∈ [[Option.none], [some true]], sig.getD j none = none) →
        result.getD j _REDUCED_PADDING = _REDUCED_PADDING) :=
  C5_reduce_across_examples [[Option.none], [some true]] 1 (by decide)
    (by decide)

/-- C6: a functional value of positive arity whose per-example callables
produce zero successful samples over the entire probe Cartesian product
yields, without error, exactly `_SIGNATURE_LENGTH_LAMBDA_VALUE` copies of the
reduced padding tuple (0, false, false, 1/2) from
`_property_signature_lambda`; `property_signature_value` then prepends the
concrete-block padding, so its lambda block is exactly that padding run. -/
theorem C6_lambda_all_padding (arity : Nat)
    (fns : List (List PyObj → Option PyObj)) (output_value : Value)
    (h0 : 0 < arity)
    (hempty : (runLambdaList arity fns).all List.isEmpty = true) :
    _REDUCED_PADDING = (0, false, false, 1/2) ∧
    _property_signature_lambda (.lam arity fns) output_value true =
      .ok (List.replicate _SIGNATURE_LENGTH_LAMBDA_VALUE _REDUCED_PADDING) ∧
    property_signature_value (.lam arity fns) output_value true =
      .ok (List.replicate _SIGNATURE_LENGTH_CONCRETE_VALUE _REDUCED_PADDING ++
        List.replicate _SIGNATURE_LENGTH_LAMBDA_VALUE _REDUCED_PADDING) := by
  have harity : ¬ (arity = 0) := by omega
  have hpad := lambda_core_padding _SIGNATURE_LENGTH_LAMBDA_VALUE arity fns
    output_value harity hempty
  refine ⟨rfl, hpad, ?_⟩
  simp only [property_signature_value, _property_signature_lambda,
    Value.num_free_variables, ne_eq, Bool.not_true, Bool.false_eq_true,
    if_false, if_pos harity, hpad, ok_map]

/-- C6 witness: a 1-ary lambda that fails on every probe input. -/
theorem C6_lambda_all_padding_witness :
    _REDUCED_PADDING = (0, false, false, 1/2) ∧
    _property_signature_lambda (.lam 1 [fun _ => none]) (.concrete [PyObj.i 0])
        true =
      .ok (List.replicate _SIGNATURE_LENGTH_LAMBDA_VALUE _REDUCED_PADDING) ∧
    property_signature_value (.lam 1 [fun _ => none]) (.concrete [PyObj.i 0])
        true =
      .ok (List.replicate _SIGNATURE_LENGTH_CONCRETE_VALUE _REDUCED_PADDING ++
        List.replicate _SIGNATURE_LENGTH_LAMBDA_VALUE _REDUCED_PADDING) :=
  C6_lambda_all_padding 1 [fun _ => none] (.concrete [PyObj.i 0])
    (by omega) rfl

theorem foldl_max_spec (as : List Int) :
    ∀ a : Int, (as.foldl max a = a ∨ as.foldl max a ∈ as) ∧
      a ≤ as.foldl max a ∧ ∀ y ∈ as, y ≤ as.foldl max a := by
  induction as with
  | nil => exact fun a => ⟨Or.inl rfl, le_refl a, by simp⟩
  | cons b bs ih =>
      intro a
      obtain ⟨hmem, hle, hall⟩ := ih (max a b)
      have hfold : (b :: bs).foldl max a = bs.foldl max (max a b) := rfl
      refine ⟨?_, ?_, ?_⟩
      · rw [hfold]
        rcases hmem with h | h
        · rcases max_choice a b with hc | hc
          · exact Or.inl (by rw [h, hc])
          · exact Or.inr (by rw [h, hc]; exact List.mem_cons_self b bs)
        · exact Or.inr (List.mem_cons_of_mem b h)
      · rw [hfold]
        exact le_trans (le_max_left a b) hle
      · intro y hy
        rw [hfold]
        rcases List.mem_cons.mp hy with rfl | hy2
        · exact le_trans (le_max_right a y) hle
        · exact hall y hy2

theorem foldl_min_spec (as : List Int) :
    ∀ a : Int, (as.foldl min a = a ∨ as.foldl min a ∈ as) ∧
      as.foldl min a ≤ a ∧ ∀ y ∈ as, as.foldl min a ≤ y := by
  induction as with
  | nil => exact fun a => ⟨Or.inl rfl, le_refl a, by simp⟩
  | cons b bs ih =>
      intro a
      obtain ⟨hmem, hle, hall⟩ := ih (min a b)
      have hfold : (b :: bs).foldl min a = bs.foldl min (min a b) := rfl
      refine ⟨?_, ?_, ?_⟩
      · rw [hfold]
        rcases hmem with h | h
        · rcases min_choice a b with hc | hc
          · exact Or.inl (by rw [h, hc])
          · exact Or.inr (by rw [h, hc]; exact List.mem_cons_self b bs)
        · exact Or.inr (List.mem_cons_of_mem b h)
      · rw [hfold]
        exact le_trans hle (min_le_left a b)
      · intro y hy
        rw [hfold]
        rcases List.mem_cons.mp hy with rfl | hy2
        · exact le_trans hle (min_le_right a y)
        · exact hall y hy2

/-- C7: `_relevant` on a list returns exactly the 7 objects [the list itself,
its length, its max, its min, its sum, its first element, its last element];
on the empty list the max/min/sum/first/last components are computed from the
placeholder [0] substituted for the empty list (so each equals 0 and none
fails), while the first component is the real empty list and the length
component is 0, computed from the real empty list. -/
theorem C7_relevant_list (xs : List Int) :
    (xs = [] → _relevant (.l xs) =
      .ok [.l [], .i 0, .i 0, .i 0, .i 0, .i 0, .i 0]) ∧
    (xs ≠ [] → ∃ mx mn, _relevant (.l xs) =
        .ok [.l xs, .i xs.length, .i mx, .i mn, .i xs.sum,
             .i (xs.headD 0), .i (xs.getLastD 0)] ∧
      mx ∈ xs ∧ (∀ y ∈ xs, y ≤ mx) ∧ mn ∈ xs ∧ (∀ y ∈ xs, mn ≤ y)) := by
  constructor
  · rintro rfl
    rfl
  · intro hne
    obtain ⟨c, cs, rfl⟩ := List.exists_cons_of_ne_nil hne
    obtain ⟨hmaxmem, hmaxle, hmaxall⟩ := foldl_max_spec cs c
    obtain ⟨hminmem, hminle, hminall⟩ := foldl_min_spec cs c
    refine ⟨pyMax (c :: cs), pyMin (c :: cs), rfl, ?_, ?_, ?_, ?_⟩
    · rcases hmaxmem with h | h
      · rw [show pyMax (c :: cs) = cs.foldl max c from rfl, h]
        exact List.mem_cons_self c cs
      · exact List.mem_cons_of_mem c h
    · intro y hy
      rcases List.mem_cons.mp hy with rfl | hy2
      · exact hmaxle
      · exact hmaxall y hy2
    · rcases hminmem with h | h
      · rw [show pyMin (c :: cs) = cs.foldl min c from rfl, h]
        exact List.mem_cons_self c cs
      · exact List.mem_cons_of_mem c h
    · intro y hy
      rcases List.mem_cons.mp hy with rfl | hy2
      · exact hminle
      · exact hminall y hy2

/-- C7 witness: the empty list and the list [5, 2]. -/
theorem C7_relevant_list_witness :
    _relevant (.l []) = .ok [.l [], .i 0, .i 0, .i 0, .i 0, .i 0, .i 0] ∧
    (∃ mx mn, _relevant (.l [5, 2]) =
        .ok [.l [5, 2], .i (List.length [5, 2]), .i mx, .i mn,
             .i (List.sum [5, 2]), .i (List.headD [5, 2] 0),
             .i (List.getLastD [5, 2] 0)] ∧
      mx ∈ [5, 2] ∧ (∀ y ∈ [5, 2], y ≤ mx) ∧ mn ∈ [5, 2] ∧
      (∀ y ∈ [5, 2], mn ≤ y)) :=
  ⟨(C7_relevant_list []).1 rfl, (C7_relevant_list [5, 2]).2 (by decide)⟩

/-- C8: `_compare_same_type` on [1,2,3] versus [1,2,3,4] returns exactly the
11 booleans [equal=False, same-length=False, longer=False, shorter=True,
length gap below 2=True, elementwise LE/GE/EQ over the zipped shared prefix
all True, set-equal=False, subset=True, superset=False]. -/
theorem C8_compare_same_type_lists :
    _compare_same_type (.l [1, 2, 3]) (.l [1, 2, 3, 4]) =
      .ok [false, false, false, true, true, true, true, true,
           false, true, false] := rfl

/-- C9: the lambda sampler's failure recovery covers only the invocation of
the per-example callable, not the later signature composition: a callable
that successfully returns a non-None result of unsupported runtime type (a
float, embedded as `other 0`) makes `_property_signature_lambda` — and hence
`property_signature_value` — surface the unhandled-type error rather than
silently discard the sample, because the recorded output is fed to the basic
property extractors outside the try/except guard. -/
theorem C9_lambda_unhandled_output :
    (fun _ => some (PyObj.other 0) : List PyObj → Option PyObj) [PyObj.b false]
      = some (PyObj.other 0) ∧
    _property_signature_lambda (.lam 1 [fun _ => some (PyObj.other 0)])
        (.concrete [PyObj.i 1]) true =
      .error "NotImplementedError: x has unhandled type" ∧
    property_signature_value (.lam 1 [fun _ => some (PyObj.other 0)])
        (.concrete [PyObj.i 1]) true =
      .error "NotImplementedError: x has unhandled type" :=
  ⟨rfl, rfl, rfl⟩

/-- C10: for every input `_type_property` is applied to in this module — a
concrete supported object (which carries no positive `num_free_variables`),
or a functional value, of unhandled runtime type with positive
`num_free_variables` — exactly one of the four classifier bits is true: the
vector is one-hot, never all-false and never multi-hot. -/
theorem C10_type_property_one_hot (x : PyObj)
    (h : SupportedObj x ∨ 0 < numFreeVariables x) :
    (_type_property x).length = 4 ∧ (_type_property x).count true = 1 := by
  cases x with
  | b a => exact ⟨rfl, rfl⟩
  | i a => exact ⟨rfl, rfl⟩
  | l a => exact ⟨rfl, rfl⟩
  | other n =>
      rcases h with hs | hn
      · exact absurd rfl hs
      · have hd : decide (0 < numFreeVariables (PyObj.other n)) = true :=
          decide_eq_true hn
        refine ⟨rfl, ?_⟩
        simp [_type_property, hd, typeOf]

/-- C10 witness: a concrete boolean and a 2-ary functional value. -/
theorem C10_type_property_one_hot_witness :
    ((_type_property (PyObj.b true)).length = 4 ∧
      (_type_property (PyObj.b true)).count true = 1) ∧
    ((_type_property (PyObj.other 2)).length = 4 ∧
      (_type_property (PyObj.other 2)).count true = 1) :=
  ⟨C10_type_property_one_hot (PyObj.b true) (Or.inl (by decide)),
   C10_type_property_one_hot (PyObj.other 2) (Or.inr (by decide))⟩
